import Mathlib

/-!
# Verification of the soundcompare submission backend (`src/app.py`)

Shallow embedding of the Flask + SQLAlchemy application in `src/app.py`:
a submission endpoint (`api_submit`), three admin endpoints
(`api_admin_data`, `api_admin_clear`, `api_admin_generate_test`) over a
single `submissions` table.

JSON payloads are modelled by the inductive `Json` below, with JSON
numbers restricted to integers (the application only ever stores and
compares integral numeric fields; floating point is outside the model).
`json.dumps`/`json.loads` of the Python standard library are modelled by
the executable `Json.dumps`/`Json.loads` serializer/parser pair defined
here; the concrete wire format is opaque to the application (the spec
stores it as "opaque text"), and the model preserves the properties the
code relies on: `loads` inverts `dumps`, and ill-formed text fails to
parse.  One immaterial difference to CPython: control characters inside
strings are emitted raw rather than `\u`-escaped (`ensure_ascii=False`
already emits every other non-ASCII character raw).
-/

namespace SoundCompare

/-- A JSON value.  Numbers are restricted to integers (see module header). -/
inductive Json : Type where
  | null : Json
  | bool (b : Bool) : Json
  | num (n : Int) : Json
  | str (s : String) : Json
  | arr (elems : List Json) : Json
  | obj (fields : List (String × Json)) : Json

namespace Json

/-- Decimal digit character for `d < 10` (model of Python number formatting). -/
def digitChar : Nat → Char
  | 0 => '0' | 1 => '1' | 2 => '2' | 3 => '3' | 4 => '4'
  | 5 => '5' | 6 => '6' | 7 => '7' | 8 => '8' | 9 => '9'
  | _ => '0'

/-- Fuel-driven digit expansion (structural, so it evaluates by `rfl`). -/
def renderNatAux : Nat → Nat → List Char
  | 0, _ => []
  | f + 1, n =>
    if n < 10 then [digitChar n]
    else renderNatAux f (n / 10) ++ [digitChar (n % 10)]

/-- Decimal rendering of a natural number (most significant digit first). -/
def renderNat (n : Nat) : List Char := renderNatAux (n + 1) n

theorem renderNatAux_congr : ∀ f g n, n < f → n < g →
    renderNatAux f n = renderNatAux g n := by
  intro f
  induction f with
  | zero => intro g n hf _; omega
  | succ f ih =>
    intro g n hf hg
    cases g with
    | zero => omega
    | succ g =>
      simp only [renderNatAux]
      by_cases h10 : n < 10
      · rw [if_pos h10, if_pos h10]
      · rw [if_neg h10, if_neg h10]
        have hdiv : n / 10 < n := Nat.div_lt_self (by omega) (by omega)
        rw [ih f (n / 10) (by omega) (by omega)]
        rw [ih g (n / 10) (by omega) (by omega)]

/-- Unfolding equation for `renderNat`. -/
theorem renderNat_eq (n : Nat) : renderNat n =
    if n < 10 then [digitChar n]
    else renderNat (n / 10) ++ [digitChar (n % 10)] := by
  show renderNatAux (n + 1) n = _
  simp only [renderNatAux]
  by_cases h10 : n < 10
  · rw [if_pos h10, if_pos h10]
  · rw [if_neg h10, if_neg h10]
    have hdiv : n / 10 < n := Nat.div_lt_self (by omega) (by omega)
    rw [renderNatAux_congr n (n / 10 + 1) (n / 10) (by omega) (by omega)]
    rfl

/-- Decimal rendering of an integer, with a leading minus sign when negative. -/
def renderInt (n : Int) : List Char :=
  if n < 0 then '-' :: renderNat n.natAbs else renderNat n.toNat

/-- JSON string escaping: `"` and `\` are backslash-escaped, everything else
is emitted raw (see module header). -/
def escapeChar (c : Char) : List Char :=
  if c = '"' ∨ c = '\\' then ['\\', c] else [c]

/-- Rendering of a JSON string literal, including the surrounding quotes. -/
def renderStr (s : List Char) : List Char :=
  '"' :: ((s.map escapeChar).flatten ++ ['"'])

/-- Keyword emitted for the JSON `null` literal. -/
def nullChars : List Char := ['n', 'u', 'l', 'l']

/-- Keyword emitted for the JSON `true` literal. -/
def trueChars : List Char := ['t', 'r', 'u', 'e']

/-- Keyword emitted for the JSON `false` literal. -/
def falseChars : List Char := ['f', 'a', 'l', 's', 'e']

mutual

/-- Serialization of a JSON value, following `json.dumps` with the default
separators `", "` and `": "` and `ensure_ascii=False`. -/
def render : Json → List Char
  | .null => nullChars
  | .bool true => trueChars
  | .bool false => falseChars
  | .num n => renderInt n
  | .str s => renderStr s.data
  | .arr xs => '[' :: (renderList xs ++ [']'])
  | .obj ps => '{' :: (renderPairsList ps ++ ['}'])

/-- Array elements joined by `", "`. -/
def renderList : List Json → List Char
  | [] => []
  | [x] => render x
  | x :: y :: ys => render x ++ ',' :: ' ' :: renderList (y :: ys)

/-- Object members `"key": value` joined by `", "`. -/
def renderPairsList : List (String × Json) → List Char
  | [] => []
  | [(k, v)] => renderStr k.data ++ ':' :: ' ' :: render v
  | (k, v) :: p :: ps =>
      renderStr k.data ++ ':' :: ' ' :: render v ++ ',' :: ' ' :: renderPairsList (p :: ps)

end

/-- Numeric value of a decimal digit character. -/
def digitVal (c : Char) : Nat := c.toNat - 48

/-- Value of a most-significant-first digit list. -/
def digitsVal (ds : List Char) : Nat :=
  ds.foldl (fun a c => a * 10 + digitVal c) 0

/-- Parse a maximal nonempty run of decimal digits. -/
def parseNatDigits (cs : List Char) : Option (Nat × List Char) :=
  let ds := cs.takeWhile (fun c => c.isDigit)
  if ds.isEmpty then none
  else some (digitsVal ds, cs.dropWhile (fun c => c.isDigit))

/-- Parse the body of a JSON string literal (after the opening quote),
returning the unescaped characters and the input after the closing quote. -/
def parseStrChars : List Char → Option (List Char × List Char)
  | [] => none
  | c :: cs =>
    if c = '"' then some ([], cs)
    else if c = '\\' then
      match cs with
      | [] => none
      | e :: cs2 =>
        if e = '"' ∨ e = '\\' then
          match parseStrChars cs2 with
          | some (s, r) => some (e :: s, r)
          | none => none
        else none
    else
      match parseStrChars cs with
      | some (s, r) => some (c :: s, r)
      | none => none

mutual

/-- Fuel-indexed JSON value parser; inverts `render` (proved below). -/
def parseVal : Nat → List Char → Option (Json × List Char)
  | 0, _ => none
  | _ + 1, [] => none
  | f + 1, c :: cs =>
    if c = 'n' then
      match cs with
      | 'u' :: 'l' :: 'l' :: rest => some (.null, rest)
      | _ => none
    else if c = 't' then
      match cs with
      | 'r' :: 'u' :: 'e' :: rest => some (.bool true, rest)
      | _ => none
    else if c = 'f' then
      match cs with
      | 'a' :: 'l' :: 's' :: 'e' :: rest => some (.bool false, rest)
      | _ => none
    else if c = '"' then
      match parseStrChars cs with
      | some (s, r) => some (.str (String.mk s), r)
      | none => none
    else if c = '[' then
      match cs with
      | [] => none
      | d :: cs2 =>
        if d = ']' then some (.arr [], cs2)
        else
          match parseItems f (d :: cs2) with
          | some (vs, r) => some (.arr vs, r)
          | none => none
    else if c = '{' then
      match cs with
      | [] => none
      | d :: cs2 =>
        if d = '}' then some (.obj [], cs2)
        else
          match parsePairs f (d :: cs2) with
          | some (ps, r) => some (.obj ps, r)
          | none => none
    else if c = '-' then
      match parseNatDigits cs with
      | some (m, r) => some (.num (-(m : Int)), r)
      | none => none
    else if c.isDigit then
      match parseNatDigits (c :: cs) with
      | some (m, r) => some (.num (m : Int), r)
      | none => none
    else none

/-- Parse one-or-more array elements up to and including the closing `]`. -/
def parseItems : Nat → List Char → Option (List Json × List Char)
  | 0, _ => none
  | f + 1, cs =>
    match parseVal f cs with
    | none => none
    | some (v, r) =>
      match r with
      | [] => none
      | d :: r2 =>
        if d = ']' then some ([v], r2)
        else if d = ',' then
          match r2 with
          | ' ' :: r3 =>
            match parseItems f r3 with
            | some (vs, r4) => some (v :: vs, r4)
            | none => none
          | _ => none
        else none

/-- Parse one-or-more object members up to and including the closing brace. -/
def parsePairs : Nat → List Char → Option (List (String × Json) × List Char)
  | 0, _ => none
  | f + 1, cs =>
    match cs with
    | [] => none
    | c :: cs1 =>
      if c = '"' then
        match parseStrChars cs1 with
        | none => none
        | some (k, r) =>
          match r with
          | d1 :: d2 :: r2 =>
            if d1 = ':' ∧ d2 = ' ' then
              match parseVal f r2 with
              | none => none
              | some (v, r3) =>
                match r3 with
                | [] => none
                | d3 :: r4 =>
                  if d3 = '}' then some ([(String.mk k, v)], r4)
                  else if d3 = ',' then
                    match r4 with
                    | ' ' :: r5 =>
                      match parsePairs f r5 with
                      | some (ps, r6) => some ((String.mk k, v) :: ps, r6)
                      | none => none
                    | _ => none
                  else none
            else none
          | _ => none
      else none

end

/-- Model of Python `json.dumps(v, ensure_ascii=False)`. -/
def dumps (j : Json) : String := String.mk (render j)

/-- Model of Python `json.loads`: full-input parse or failure. -/
def loads (s : String) : Option Json :=
  match parseVal (s.data.length + 1) s.data with
  | some (j, []) => some j
  | _ => none

mutual

/-- Fuel bound used by the parser round-trip proof. -/
def size : Json → Nat
  | .null => 1
  | .bool _ => 1
  | .num _ => 1
  | .str _ => 1
  | .arr xs => 1 + sizeItems xs
  | .obj ps => 1 + sizePairs ps

/-- Fuel bound for a nonempty array tail. -/
def sizeItems : List Json → Nat
  | [] => 0
  | x :: xs => 1 + size x + sizeItems xs

/-- Fuel bound for a nonempty member tail. -/
def sizePairs : List (String × Json) → Nat
  | [] => 0
  | (_, v) :: ps => 1 + size v + sizePairs ps

end

/-- Trailing input after a rendered number must not begin with a digit
(the parser takes the maximal digit run). -/
def okAfterNum : List Char → Bool
  | [] => true
  | c :: _ => !c.isDigit

theorem digitChar_isDigit (d : Nat) (h : d < 10) : (digitChar d).isDigit = true := by
  interval_cases d <;> decide

theorem digitVal_digitChar (d : Nat) (h : d < 10) : digitVal (digitChar d) = d := by
  interval_cases d <;> decide

theorem renderNat_ne_nil (n : Nat) : renderNat n ≠ [] := by
  rw [renderNat_eq]
  split <;> simp

theorem renderNat_all_digits (n : Nat) : ∀ c ∈ renderNat n, c.isDigit = true := by
  induction n using Nat.strong_induction_on with
  | _ n ih =>
    rw [renderNat_eq]
    split
    · next h =>
      intro c hc
      simp only [List.mem_singleton] at hc
      subst hc
      exact digitChar_isDigit n h
    · next h =>
      intro c hc
      rcases List.mem_append.mp hc with hc | hc
      · exact ih (n / 10) (Nat.div_lt_self (by omega) (by omega)) c hc
      · simp only [List.mem_singleton] at hc
        subst hc
        exact digitChar_isDigit (n % 10) (Nat.mod_lt _ (by omega))

theorem digitsVal_append_one (ds : List Char) (d : Char) :
    digitsVal (ds ++ [d]) = digitsVal ds * 10 + digitVal d := by
  simp [digitsVal, List.foldl_append]

theorem digitsVal_renderNat (n : Nat) : digitsVal (renderNat n) = n := by
  induction n using Nat.strong_induction_on with
  | _ n ih =>
    rw [renderNat_eq]
    split
    · next h => simp [digitsVal, digitVal_digitChar n h]
    · next h =>
      rw [digitsVal_append_one, ih (n / 10) (Nat.div_lt_self (by omega) (by omega)),
        digitVal_digitChar (n % 10) (Nat.mod_lt _ (by omega))]
      omega

theorem renderNat_injective (m n : Nat) (h : renderNat m = renderNat n) : m = n := by
  have := digitsVal_renderNat m
  rw [h, digitsVal_renderNat] at this
  omega

theorem renderNat_head (n : Nat) :
    ∃ c t, renderNat n = c :: t ∧ c.isDigit = true := by
  cases hrn : renderNat n with
  | nil => exact absurd hrn (renderNat_ne_nil n)
  | cons c t =>
    exact ⟨c, t, rfl, renderNat_all_digits n c (by rw [hrn]; exact List.mem_cons_self c t)⟩

theorem takeWhile_digits_append (ds rest : List Char)
    (hds : ∀ c ∈ ds, c.isDigit = true) (hrest : okAfterNum rest = true) :
    (ds ++ rest).takeWhile (fun c => c.isDigit) = ds ∧
    (ds ++ rest).dropWhile (fun c => c.isDigit) = rest := by
  induction ds with
  | nil =>
    cases rest with
    | nil => simp
    | cons c cs =>
      simp only [okAfterNum, Bool.not_eq_true'] at hrest
      simp [List.takeWhile, List.dropWhile, hrest]
  | cons d ds ih =>
    have hd : d.isDigit = true := hds d (List.mem_cons_self d ds)
    have := ih (fun c hc => hds c (List.mem_cons_of_mem d hc))
    simp [List.takeWhile, List.dropWhile, hd, this.1, this.2]

theorem parseNatDigits_renderNat (n : Nat) (rest : List Char)
    (hrest : okAfterNum rest = true) :
    parseNatDigits (renderNat n ++ rest) = some (n, rest) := by
  obtain ⟨ht, hd⟩ :=
    takeWhile_digits_append (renderNat n) rest (renderNat_all_digits n) hrest
  simp only [parseNatDigits, ht, hd]
  rw [if_neg (by simp [List.isEmpty_iff, renderNat_ne_nil n])]
  rw [digitsVal_renderNat]

theorem parseStrChars_escape (s rest : List Char) :
    parseStrChars ((s.map escapeChar).flatten ++ '"' :: rest) = some (s, rest) := by
  induction s with
  | nil =>
    rw [parseStrChars.eq_def]
    simp
  | cons c cs ih =>
    by_cases hc : c = '"' ∨ c = '\\'
    · rcases hc with hc | hc <;> subst hc <;>
        (rw [parseStrChars.eq_def]; simp [escapeChar, ih])
    · push_neg at hc
      rw [parseStrChars.eq_def]
      simp [escapeChar, hc.1, hc.2, ih]

theorem string_mk_data (s : String) : String.mk s.data = s := rfl

theorem render_head_ne_rbracket (j : Json) :
    ∃ c t, render j = c :: t ∧ c ≠ ']' := by
  cases j with
  | null => exact ⟨'n', _, rfl, by decide⟩
  | bool b =>
    cases b with
    | false => exact ⟨'f', _, rfl, by decide⟩
    | true => exact ⟨'t', _, rfl, by decide⟩
  | num n =>
    simp only [render, renderInt]
    by_cases hneg : n < 0
    · rw [if_pos hneg]; exact ⟨'-', _, rfl, by decide⟩
    · rw [if_neg hneg]
      obtain ⟨c, t, hct, hcd⟩ := renderNat_head n.toNat
      refine ⟨c, t, hct, fun hce => ?_⟩
      subst hce
      exact absurd hcd (by decide)
  | str s => exact ⟨'"', _, rfl, by decide⟩
  | arr xs => exact ⟨'[', _, rfl, by decide⟩
  | obj ps => exact ⟨'{', _, rfl, by decide⟩

theorem renderList_cons_decomp (x : Json) (xs : List Json) :
    ∃ w, renderList (x :: xs) = render x ++ w := by
  cases xs with
  | nil => exact ⟨[], by simp [renderList]⟩
  | cons y ys => exact ⟨_, by rw [renderList]⟩

theorem renderList_head_ne_rbracket (x : Json) (xs : List Json) :
    ∃ c t, renderList (x :: xs) = c :: t ∧ c ≠ ']' := by
  obtain ⟨w, hw⟩ := renderList_cons_decomp x xs
  obtain ⟨c, t, hct, hcne⟩ := render_head_ne_rbracket x
  exact ⟨c, t ++ w, by rw [hw, hct, List.cons_append], hcne⟩

theorem renderPairsList_cons_decomp (k : String) (v : Json)
    (ps : List (String × Json)) :
    ∃ w, renderPairsList ((k, v) :: ps) =
      '"' :: ((k.data.map escapeChar).flatten ++ '"' :: (':' :: ' ' :: (render v ++ w))) := by
  cases ps with
  | nil =>
    refine ⟨[], ?_⟩
    simp [renderPairsList, renderStr]
  | cons p ps' =>
    refine ⟨',' :: ' ' :: renderPairsList (p :: ps'), ?_⟩
    simp [renderPairsList, renderStr]

theorem size_pos (j : Json) : 1 ≤ size j := by
  cases j <;> simp [size]

theorem sizeItems_pos (x : Json) (xs : List Json) : 1 ≤ sizeItems (x :: xs) := by
  simp only [sizeItems]
  omega

theorem sizePairs_pos (p : String × Json) (ps : List (String × Json)) :
    1 ≤ sizePairs (p :: ps) := by
  obtain ⟨k, v⟩ := p
  simp only [sizePairs]
  omega

theorem isDigit_ne (c x : Char) (hc : c.isDigit = true) (hx : x.isDigit = false) :
    c ≠ x := by
  intro h
  rw [h, hx] at hc
  exact Bool.noConfusion hc

theorem parse_render_all (f : Nat) :
    (∀ j rest, size j ≤ f → okAfterNum rest = true →
        parseVal f (render j ++ rest) = some (j, rest))
    ∧ (∀ xs rest, xs ≠ [] → sizeItems xs ≤ f →
        parseItems f (renderList xs ++ ']' :: rest) = some (xs, rest))
    ∧ (∀ ps rest, ps ≠ [] → sizePairs ps ≤ f →
        parsePairs f (renderPairsList ps ++ '}' :: rest) = some (ps, rest)) := by
  induction f with
  | zero =>
    refine ⟨?_, ?_, ?_⟩
    · intro j rest hsz _
      exact absurd hsz (by have := size_pos j; omega)
    · intro xs rest hne hsz
      cases xs with
      | nil => exact absurd rfl hne
      | cons x xs => exact absurd hsz (by have := sizeItems_pos x xs; omega)
    · intro ps rest hne hsz
      cases ps with
      | nil => exact absurd rfl hne
      | cons p ps => exact absurd hsz (by have := sizePairs_pos p ps; omega)
  | succ f ih =>
    obtain ⟨ihv, ihi, ihp⟩ := ih
    refine ⟨?_, ?_, ?_⟩
    · intro j rest hsz hrest
      cases j with
      | null => simp [render, nullChars, parseVal]
      | bool b => cases b <;> simp [render, trueChars, falseChars, parseVal]
      | num n =>
        by_cases hneg : n < 0
        · have hn := parseNatDigits_renderNat n.natAbs rest hrest
          have hsh : render (.num n) ++ rest = '-' :: (renderNat n.natAbs ++ rest) := by
            simp [render, renderInt, if_pos hneg]
          rw [hsh]
          simp only [parseVal]
          rw [if_neg (by decide), if_neg (by decide), if_neg (by decide),
            if_neg (by decide), if_neg (by decide), if_neg (by decide),
            if_pos trivial, hn]
          simp [Int.natCast_natAbs]
          rw [abs_of_neg hneg]
          exact neg_neg n
        · obtain ⟨c, t, hct, hcd⟩ := renderNat_head n.toNat
          have hn := parseNatDigits_renderNat n.toNat rest hrest
          have hsh : render (.num n) ++ rest = c :: (t ++ rest) := by
            simp [render, renderInt, if_neg hneg, hct]
          have hn' : parseNatDigits (c :: (t ++ rest)) = some (n.toNat, rest) := by
            rw [← List.cons_append, ← hct]; exact hn
          have hcast : ((n.toNat : Nat) : Int) = n := by omega
          rw [hsh]
          simp [parseVal, isDigit_ne c 'n' hcd (by decide), isDigit_ne c 't' hcd (by decide),
            isDigit_ne c 'f' hcd (by decide), isDigit_ne c '"' hcd (by decide),
            isDigit_ne c '[' hcd (by decide), isDigit_ne c '{' hcd (by decide),
            isDigit_ne c '-' hcd (by decide), hcd, hn', hcast]
      | str s =>
        have hsh : render (.str s) ++ rest =
            '"' :: ((s.data.map escapeChar).flatten ++ '"' :: rest) := by
          simp [render, renderStr]
        rw [hsh]
        simp [parseVal, parseStrChars_escape, string_mk_data]
      | arr xs =>
        cases xs with
        | nil => simp [render, renderList, parseVal]
        | cons x xs' =>
          have hrec := ihi (x :: xs') rest (by simp) (by simp only [size] at hsz; omega)
          obtain ⟨c, t, hct, hcne⟩ := renderList_head_ne_rbracket x xs'
          have hsh : render (.arr (x :: xs')) ++ rest = '[' :: c :: (t ++ ']' :: rest) := by
            simp [render, hct]
          have hrec' : parseItems f (c :: (t ++ ']' :: rest)) = some (x :: xs', rest) := by
            rw [← List.cons_append, ← hct]; exact hrec
          rw [hsh]
          simp [parseVal, hcne, hrec']
      | obj ps =>
        cases ps with
        | nil => simp [render, renderPairsList, parseVal]
        | cons p ps' =>
          obtain ⟨k, v⟩ := p
          have hrec := ihp ((k, v) :: ps') rest (by simp)
            (by simp only [size] at hsz; omega)
          obtain ⟨w, hw⟩ := renderPairsList_cons_decomp k v ps'
          have hsh : render (.obj ((k, v) :: ps')) ++ rest =
              '{' :: '"' :: ((k.data.map escapeChar).flatten ++
                '"' :: (':' :: ' ' :: (render v ++ (w ++ '}' :: rest)))) := by
            simp [render, hw]
          have hrec' : parsePairs f ('"' :: ((k.data.map escapeChar).flatten ++
                '"' :: (':' :: ' ' :: (render v ++ (w ++ '}' :: rest))))) =
              some ((k, v) :: ps', rest) := by
            have h2 : '"' :: ((k.data.map escapeChar).flatten ++
                '"' :: (':' :: ' ' :: (render v ++ (w ++ '}' :: rest)))) =
                renderPairsList ((k, v) :: ps') ++ '}' :: rest := by
              rw [hw]; simp
            rw [h2]; exact hrec
          rw [hsh]
          simp [parseVal, hrec']
    · intro xs rest hne hsz
      cases xs with
      | nil => exact absurd rfl hne
      | cons x xs' =>
        cases xs' with
        | nil =>
          have hv := ihv x (']' :: rest) (by simp only [sizeItems] at hsz; omega) rfl
          simp only [renderList]
          simp [parseItems, hv]
        | cons y ys =>
          have hv := ihv x (',' :: ' ' :: (renderList (y :: ys) ++ ']' :: rest))
            (by simp only [sizeItems] at hsz; omega) rfl
          have hrec := ihi (y :: ys) rest (by simp)
            (by simp only [sizeItems] at hsz ⊢; omega)
          have hsh : renderList (x :: y :: ys) ++ ']' :: rest =
              render x ++ (',' :: ' ' :: (renderList (y :: ys) ++ ']' :: rest)) := by
            rw [renderList]; simp
          rw [hsh]
          simp [parseItems, hv, hrec]
    · intro ps rest hne hsz
      cases ps with
      | nil => exact absurd rfl hne
      | cons p ps' =>
        obtain ⟨k, v⟩ := p
        have hsv : size v ≤ f := by simp only [sizePairs] at hsz; omega
        cases ps' with
        | nil =>
          have hv := ihv v ('}' :: rest) hsv rfl
          have hsh : renderPairsList [(k, v)] ++ '}' :: rest =
              '"' :: ((k.data.map escapeChar).flatten ++
                '"' :: (':' :: ' ' :: (render v ++ '}' :: rest))) := by
            simp [renderPairsList, renderStr]
          rw [hsh]
          simp [parsePairs, parseStrChars_escape, hv, string_mk_data]
        | cons q qs =>
          have hv := ihv v (',' :: ' ' :: (renderPairsList (q :: qs) ++ '}' :: rest))
            hsv rfl
          have hrec := ihp (q :: qs) rest (by simp)
            (by simp only [sizePairs] at hsz ⊢; omega)
          have hsh : renderPairsList ((k, v) :: q :: qs) ++ '}' :: rest =
              '"' :: ((k.data.map escapeChar).flatten ++
                '"' :: (':' :: ' ' :: (render v ++
                  ',' :: ' ' :: (renderPairsList (q :: qs) ++ '}' :: rest)))) := by
            rw [renderPairsList]; simp [renderStr]
          rw [hsh]
          simp [parsePairs, parseStrChars_escape, hv, hrec, string_mk_data]

theorem size_le_render_aux (f : Nat) :
    (∀ j, size j ≤ f → size j ≤ (render j).length)
    ∧ (∀ xs, xs ≠ [] → sizeItems xs ≤ f → sizeItems xs ≤ (renderList xs).length + 1)
    ∧ (∀ ps, ps ≠ [] → sizePairs ps ≤ f →
        sizePairs ps ≤ (renderPairsList ps).length + 1) := by
  induction f with
  | zero =>
    refine ⟨?_, ?_, ?_⟩
    · intro j hsz
      exact absurd hsz (by have := size_pos j; omega)
    · intro xs hne hsz
      cases xs with
      | nil => exact absurd rfl hne
      | cons x xs => exact absurd hsz (by have := sizeItems_pos x xs; omega)
    · intro ps hne hsz
      cases ps with
      | nil => exact absurd rfl hne
      | cons p ps => exact absurd hsz (by have := sizePairs_pos p ps; omega)
  | succ f ih =>
    obtain ⟨ihv, ihi, ihp⟩ := ih
    refine ⟨?_, ?_, ?_⟩
    · intro j hsz
      cases j with
      | null => simp [render, nullChars, size]
      | bool b => cases b <;> simp [render, trueChars, falseChars, size]
      | num n =>
        have h1 : renderNat n.natAbs ≠ [] := renderNat_ne_nil _
        have h2 : renderNat n.toNat ≠ [] := renderNat_ne_nil _
        have h1' : 0 < (renderNat n.natAbs).length := List.length_pos.mpr h1
        have h2' : 0 < (renderNat n.toNat).length := List.length_pos.mpr h2
        simp only [render, renderInt, size]
        split <;> simp <;> omega
      | str s => simp [render, renderStr, size]
      | arr xs =>
        cases xs with
        | nil => simp [render, renderList, size, sizeItems]
        | cons x xs' =>
          have h := ihi (x :: xs') (by simp) (by simp only [size] at hsz; omega)
          simp only [size, render, List.length_cons, List.length_append,
            List.length_singleton]
          omega
      | obj ps =>
        cases ps with
        | nil => simp [render, renderPairsList, size, sizePairs]
        | cons p ps' =>
          have h := ihp (p :: ps') (by simp) (by simp only [size] at hsz; omega)
          simp only [size, render, List.length_cons, List.length_append,
            List.length_singleton]
          omega
    · intro xs hne hsz
      cases xs with
      | nil => exact absurd rfl hne
      | cons x xs' =>
        have hx := ihv x (by simp only [sizeItems] at hsz; omega)
        cases xs' with
        | nil =>
          simp only [sizeItems, renderList]
          omega
        | cons y ys =>
          have h2 := ihi (y :: ys) (by simp) (by simp only [sizeItems] at hsz ⊢; omega)
          simp only [sizeItems] at h2
          simp only [sizeItems, renderList, List.length_append, List.length_cons]
          omega
    · intro ps hne hsz
      cases ps with
      | nil => exact absurd rfl hne
      | cons p ps' =>
        obtain ⟨k, v⟩ := p
        have hv := ihv v (by simp only [sizePairs] at hsz; omega)
        cases ps' with
        | nil =>
          simp only [sizePairs, renderPairsList, List.length_append, List.length_cons]
          omega
        | cons q qs =>
          have h2 := ihp (q :: qs) (by simp) (by simp only [sizePairs] at hsz ⊢; omega)
          simp only [sizePairs] at h2
          simp only [sizePairs, renderPairsList, List.length_append, List.length_cons]
          omega

theorem size_le_render (j : Json) : size j ≤ (render j).length :=
  (size_le_render_aux (size j)).1 j le_rfl

theorem render_ne_nil (j : Json) : render j ≠ [] := by
  intro h
  have h1 := size_pos j
  have h2 := size_le_render j
  rw [h] at h2
  simp at h2
  omega

/-- The parser inverts the serializer: the round-trip property the
application relies on for the stored `answers_json` column. -/
theorem loads_dumps (j : Json) : loads (dumps j) = some j := by
  have h := (parse_render_all ((render j).length + 1)).1 j []
    (le_trans (size_le_render j) (by omega)) rfl
  rw [List.append_nil] at h
  show (match parseVal ((render j).length + 1) (render j) with
        | some (v, []) => some v
        | _ => none) = some j
  rw [h]

end Json

/-!
## Python semantics helpers

Executable models of the Python-level operations `src/app.py` relies on:
truthiness, dict lookup, `in`, `int()` and `str()` coercion.
-/

/-- Python truthiness of a decoded JSON value (`if not data: ...`). -/
def pyFalsy : Json → Bool
  | .null => true
  | .bool b => !b
  | .num n => n == 0
  | .str s => s.data.isEmpty
  | .arr xs => xs.isEmpty
  | .obj ps => ps.isEmpty

/-- Python `==` between a decoded JSON value and a Python `str`: only a
string with the same characters compares equal. -/
def pyEqStr (v : Json) (s : String) : Bool :=
  match v with
  | .str t => t == s
  | _ => false

/-- Dict lookup on decoded JSON object fields.  Python builds a `dict`, so a
duplicated key keeps its last binding. -/
def lookupKey (ps : List (String × Json)) (k : String) : Option Json :=
  (ps.reverse.find? (fun p => p.1 == k)).map (fun p => p.2)

/-- Python `key in data` for a dict. -/
def hasKey (ps : List (String × Json)) (k : String) : Bool :=
  ps.any (fun p => p.1 == k)

/-- `data[k]` under a proven-present key (defaults to `null`, unreachable
when guarded by `hasKey`). -/
def getKeyD (ps : List (String × Json)) (k : String) : Json :=
  (lookupKey ps k).getD .null

/-- Nonempty all-digit run parsed as a natural number. -/
def parseDigitsOnly (ds : List Char) : Option Nat :=
  if ds.isEmpty then none
  else if ds.all (fun c => c.isDigit) then some (Json.digitsVal ds) else none

/-- Model of Python `int()` on a string: optional surrounding whitespace,
optional sign, then decimal digits.  (CPython additionally accepts
underscores between digits; none of the verified behaviours use them.) -/
def parseIntStr (s : String) : Option Int :=
  let cs := ((s.data.dropWhile Char.isWhitespace).reverse.dropWhile
      Char.isWhitespace).reverse
  match cs with
  | [] => none
  | c :: ds =>
    if c = '-' then (parseDigitsOnly ds).map (fun m => -(m : Int))
    else if c = '+' then (parseDigitsOnly ds).map (fun m => (m : Int))
    else (parseDigitsOnly (c :: ds)).map (fun m => (m : Int))

/-- Model of Python `int()` on a decoded JSON value: identity on integers,
`True`/`False` to `1`/`0`, numeric strings parsed, everything else raises
(`none`). -/
def pyInt : Json → Option Int
  | .num n => some n
  | .bool b => some (if b then 1 else 0)
  | .str s => parseIntStr s
  | _ => none

/-- Decimal string of an integer (Python `str(int)` / f-string formatting). -/
def intStr (n : Int) : String := String.mk (Json.renderInt n)

/-- Decimal string of a natural number. -/
def natStr (n : Nat) : String := String.mk (Json.renderNat n)

/-- Model of Python `str()` on a decoded JSON value.  Scalars follow CPython
(`str`, `int`, `bool`, `None`); for containers CPython uses `repr` with
single quotes — abstracted here by the JSON rendering, which no verified
behaviour depends on (the application only ever coerces timestamp fields,
which are strings in every valid payload). -/
def pyStr : Json → String
  | .str s => s
  | .num n => intStr n
  | .bool true => "True"
  | .bool false => "False"
  | .null => "None"
  | j => Json.dumps j

/-!
## Data model: the `submissions` table

One row per submission (`submissions` table of `src/app.py`).  `id` is the
auto-incrementing surrogate key assigned by the store; `submission_id`
carries the value the application passes to the driver (a string for every
valid payload); `created_at` is the server-assigned creation timestamp,
kept opaque.  Column width limits (`String(255)`, `String(64)`, 32-bit
`Integer`, 64-bit `BigInteger`) are enforced by the external engine and
appear as validity bounds on payloads rather than as model-level checks.
-/

structure Row where
  id : Nat
  submission_id : Json
  seed : Int
  timestamp_start : String
  timestamp_end : String
  duration_seconds : Int
  answers_json : String
  created_at : String

structure DB where
  rows : List Row
  nextId : Nat

/-- Fresh database: empty table, auto-increment sequence at 1. -/
def DB.init : DB := ⟨[], 1⟩

/-- `insert(record)`: append one immutable row, assigning the next
surrogate id (the sequence never decreases, also not on delete-all). -/
def DB.insert (db : DB) (r : Row) : DB :=
  ⟨db.rows ++ [{ r with id := db.nextId }], db.nextId + 1⟩

/-- An HTTP response: status code and JSON body (403/500 bodies are
Flask-generated pages, abstracted as `null`). -/
structure Resp where
  status : Nat
  body : Json

/-- An uncaught Python exception surfaces as a 500-class response. -/
def serverError : Resp := ⟨500, .null⟩

/-- The six required fields of `api_submit`. -/
def requiredFields : List String :=
  ["submissionId", "seed", "timestampStart", "timestampEnd",
   "durationSeconds", "answers"]

/-- Python `field in data` for a non-dict `data`, as `api_submit` can reach
it: membership for a list, substring test for a string. -/
def pyFieldIn (f : String) (data : Json) : Bool :=
  match data with
  | .arr xs => xs.any (fun e => pyEqStr e f)
  | .str s => decide (f.data <:+: s.data)
  | _ => false

/-- `POST /api/submit` (`api_submit` in `src/app.py`).  `body?` is the
result of `request.get_json(silent=True)` (`none` when the body is not
parseable JSON); `createdAt` models `datetime.utcnow()` at insert time.
Returns the response and the resulting database state. -/
def api_submit (body? : Option Json) (createdAt : String) (db : DB) : Resp × DB :=
  match body? with
  | none => (⟨400, .obj [("error", .str "Invalid JSON")]⟩, db)
  | some data =>
    if pyFalsy data then (⟨400, .obj [("error", .str "Invalid JSON")]⟩, db)
    else
      match data with
      | .obj kvs =>
        if !(requiredFields.all (fun f => hasKey kvs f)) then
          (⟨400, .obj [("error", .str "Missing required fields")]⟩, db)
        else
          match lookupKey kvs "answers" with
          | some (.arr ans) =>
            match pyInt (getKeyD kvs "seed") with
            | none => (serverError, db)
            | some seedv =>
              match pyInt (getKeyD kvs "durationSeconds") with
              | none => (serverError, db)
              | some durv =>
                (⟨200, .obj [("status", .str "ok")]⟩,
                 db.insert
                   { id := 0
                     submission_id := getKeyD kvs "submissionId"
                     seed := seedv
                     timestamp_start := pyStr (getKeyD kvs "timestampStart")
                     timestamp_end := pyStr (getKeyD kvs "timestampEnd")
                     duration_seconds := durv
                     answers_json := Json.dumps (.arr ans)
                     created_at := createdAt })
          | _ => (⟨400, .obj [("error", .str "answers must be a list")]⟩, db)
      | .num _ => (serverError, db)
      | .bool _ => (serverError, db)
      | data' =>
        if !(requiredFields.all (fun f => pyFieldIn f data')) then
          (⟨400, .obj [("error", .str "Missing required fields")]⟩, db)
        else (serverError, db)

/-- `require_admin_code_from_query`: the query-string guard of
`/api/admin-data`.  Authorized iff the `code` parameter is present, truthy
and exactly equal to the configured admin code. -/
def require_admin_code_from_query (adminCode : String) (code? : Option String) : Bool :=
  match code? with
  | none => false
  | some c => !c.data.isEmpty && c == adminCode

/-- Result of the JSON-body admin guard. -/
inductive AdminGate where
  | ok (fields : List (String × Json))
  | forbidden
  | error

/-- `require_admin_code_from_json`: `data = request.get_json(silent=True)
or {}`, then the `code` field must be truthy and equal to the admin code.
A truthy non-dict body makes `data.get` raise (`error`, a 500). -/
def require_admin_code_from_json (adminCode : String) (body? : Option Json) : AdminGate :=
  let data := match body? with
              | none => Json.obj []
              | some j => if pyFalsy j then Json.obj [] else j
  match data with
  | .obj kvs =>
    match lookupKey kvs "code" with
    | none => .forbidden
    | some c =>
      if pyFalsy c || !(pyEqStr c adminCode) then .forbidden else .ok kvs
  | _ => .error

/-- The answers column read back permissively (`api_admin_data`): an empty
or unparseable stored text degrades to the empty array. -/
def decodeAnswers (s : String) : Json :=
  if s.data.isEmpty then .arr []
  else
    match Json.loads s with
    | some j => j
    | none => .arr []

/-- One listed row of `/api/admin-data`, with the key order of the dict
literal in `src/app.py`. -/
def rowJson (r : Row) : Json :=
  .obj [("id", .num r.id), ("submissionId", r.submission_id),
        ("seed", .num r.seed), ("timestampStart", .str r.timestamp_start),
        ("timestampEnd", .str r.timestamp_end),
        ("durationSeconds", .num r.duration_seconds),
        ("createdAt", .str r.created_at),
        ("answers", decodeAnswers r.answers_json)]

/-- `SELECT ... ORDER BY id ASC` (a stable sort on the surrogate key). -/
def sortById (rows : List Row) : List Row :=
  List.insertionSort (fun a b => a.id ≤ b.id) rows

/-- `GET /api/admin-data` (`api_admin_data` in `src/app.py`): read-only. -/
def api_admin_data (adminCode : String) (code? : Option String) (db : DB) : Resp :=
  if require_admin_code_from_query adminCode code? then
    ⟨200, .arr ((sortById db.rows).map rowJson)⟩
  else ⟨403, .null⟩

/-- `POST /api/admin-clear` (`api_admin_clear` in `src/app.py`). -/
def api_admin_clear (adminCode : String) (body? : Option Json) (db : DB) : Resp × DB :=
  match require_admin_code_from_json adminCode body? with
  | .forbidden => (⟨403, .null⟩, db)
  | .error => (serverError, db)
  | .ok _ => (⟨200, .obj [("status", .str "cleared")]⟩, ⟨[], db.nextId⟩)

/-!
## Synthetic test-data generation (`api_admin_generate_test`)

Randomness (`random.randint`, `random.sample`) and wall-clock time
(`datetime.utcnow`) are external inputs; they enter the model as explicit
parameters.  `randF k lo hi` is the value of the `k`-th `randint(lo, hi)`
call of the request (each generated row makes 17 calls: duration, 15
answer codes, seed); `sampleF i` is the list `random.sample(real_pairs,
total_comparisons)` drawn for row `i`.  Theorems about the generator
assume only the library contracts (results in range, sample of the
requested length).
-/

structure AudioPair where
  pairId : String
  audio1 : String
  audio2 : String

/-- The fixed catalog of real audio comparisons in `api_admin_generate_test`. -/
def real_pairs : List AudioPair :=
  [⟨"bohemian_orig_vs_32", "audio/Bohemian_Original.wav", "audio/Bohemian_32.wav"⟩,
   ⟨"bohemian_orig_vs_64", "audio/Bohemian_Original.wav", "audio/Bohemian_64.wav"⟩,
   ⟨"bohemian_128_vs_orig", "audio/Bohemian_128.wav", "audio/Bohemian_Original.wav"⟩,
   ⟨"bohemian_224_vs_orig", "audio/Bohemian_224.wav", "audio/Bohemian_Original.wav"⟩,
   ⟨"bohemian_320_vs_orig", "audio/Bohemian_320.wav", "audio/Bohemian_Original.wav"⟩,
   ⟨"bohemian_orig_vs_orig", "audio/Bohemian_Original.wav", "audio/Bohemian_Original.wav"⟩,
   ⟨"conan_32_vs_orig", "audio/Conan_32.wav", "audio/Conan_Original.wav"⟩,
   ⟨"conan_orig_vs_64", "audio/Conan_Original.wav", "audio/Conan_64.wav"⟩,
   ⟨"conan_orig_vs_128", "audio/Conan_Original.wav", "audio/Conan_128.wav"⟩,
   ⟨"conan_224_vs_orig", "audio/Conan_224.wav", "audio/Conan_Original.wav"⟩,
   ⟨"conan_320_vs_orig", "audio/Conan_320.wav", "audio/Conan_Original.wav"⟩,
   ⟨"conan_orig_vs_orig", "audio/Conan_Original.wav", "audio/Conan_Original.wav"⟩,
   ⟨"tomsdiner_orig_vs_32", "audio/TomsDiner_Original.wav", "audio/TomsDiner_32.wav"⟩,
   ⟨"tomsdiner_64_vs_orig", "audio/TomsDiner_64.wav", "audio/TomsDiner_Original.wav"⟩,
   ⟨"tomsdiner_128_vs_orig", "audio/TomsDiner_128.wav", "audio/TomsDiner_Original.wav"⟩,
   ⟨"tomsdiner_orig_vs_224", "audio/TomsDiner_Original.wav", "audio/TomsDiner_224.wav"⟩,
   ⟨"tomsdiner_320_vs_orig", "audio/TomsDiner_320.wav", "audio/TomsDiner_Original.wav"⟩,
   ⟨"tomsdiner_orig_vs_orig", "audio/TomsDiner_Original.wav", "audio/TomsDiner_Original.wav"⟩]

/-- `total_comparisons`, clamped to the catalog size as in the code. -/
def total_comparisons : Nat :=
  if 15 > real_pairs.length then real_pairs.length else 15

/-- Wall-clock inputs of one `api_admin_generate_test` request:
`now = datetime.utcnow()` is read once before the loop. -/
structure PyEnv where
  nowIso : String
  epochStr : String
  isoAfter : Int → String
  createdAt : Nat → String

/-- One synthetic answer record (the dict appended per sampled pair). -/
def answerObj (pair : AudioPair) (idx : Nat) (ansCode : Int) : Json :=
  .obj [("comparison", .num idx), ("pairId", .str pair.pairId),
        ("audio1", .str pair.audio1), ("audio2", .str pair.audio2),
        ("answer", .num ansCode)]

/-- The answers of one synthetic submission: sampled pairs enumerated from
1, each with an `answer` drawn by `randint(0, 2)`. -/
def genAnswers (randF : Nat → Int → Int → Int) (base : Nat)
    (pairs : List AudioPair) : List Json :=
  pairs.enum.map (fun p => answerObj p.2 (p.1 + 1) (randF (base + 1 + p.1) 0 2))

/-- The `i`-th synthetic row built inside the generation loop. -/
def genRow (env : PyEnv) (randF : Nat → Int → Int → Int)
    (sampleF : Nat → List AudioPair) (i : Nat) : Row :=
  let base := i * 17
  let duration := randF base 60 600
  { id := 0
    submission_id := .str ("test-" ++ natStr (i + 1) ++ "-" ++ env.epochStr)
    seed := randF (base + 16) 1 (2 ^ 32 - 1)
    timestamp_start := env.nowIso ++ "Z"
    timestamp_end := env.isoAfter duration ++ "Z"
    duration_seconds := duration
    answers_json := Json.dumps (.arr (genAnswers randF base (sampleF i)))
    created_at := env.createdAt i }

/-- The loop body of `api_admin_generate_test` inside `engine.begin()`:
insert each row in turn; `failAt i = true` models a datastore error on the
`i`-th insert, aborting the transaction (`none`). -/
def runInserts (failAt : Nat → Bool) : List Row → Nat → DB → Option DB
  | [], _, db => some db
  | r :: rs, i, db =>
    if failAt i then none else runInserts failAt rs (i + 1) (db.insert r)

/-- `POST /api/admin-generate-test` (`api_admin_generate_test` in
`src/app.py`).  `engine.begin()` gives the loop transactional semantics:
on any insert failure the whole batch rolls back and the request fails. -/
def api_admin_generate_test (adminCode : String) (env : PyEnv)
    (randF : Nat → Int → Int → Int) (sampleF : Nat → List AudioPair)
    (failAt : Nat → Bool) (body? : Option Json) (db : DB) : Resp × DB :=
  match require_admin_code_from_json adminCode body? with
  | .forbidden => (⟨403, .null⟩, db)
  | .error => (serverError, db)
  | .ok kvs =>
    match pyInt ((lookupKey kvs "count").getD (.num 5)) with
    | none => (serverError, db)
    | some total =>
      let rows := (List.range total.toNat).map (genRow env randF sampleF)
      match runInserts failAt rows 0 db with
      | some db2 =>
        (⟨200, .obj [("status", .str "generated"), ("count", .num total)]⟩, db2)
      | none => (serverError, db)

/-!
## Store invariants and shared lemmas
-/

/-- Well-formedness of the store: ids strictly increase along insertion
order and stay below the auto-increment counter. -/
def DB.wf (db : DB) : Prop :=
  db.rows.Pairwise (fun a b => a.id < b.id) ∧ ∀ r ∈ db.rows, r.id < db.nextId

theorem DB.wf_init : DB.init.wf := by
  constructor
  · exact List.Pairwise.nil
  · intro r hr
    simp [DB.init] at hr

theorem DB.wf_insert (db : DB) (r : Row) (h : db.wf) : (db.insert r).wf := by
  obtain ⟨hp, hlt⟩ := h
  constructor
  · refine List.pairwise_append.mpr ⟨hp, List.pairwise_singleton _ _, ?_⟩
    intro a ha b hb
    simp only [List.mem_singleton] at hb
    subst hb
    exact hlt a ha
  · intro x hx
    rcases List.mem_append.mp hx with hx | hx
    · exact Nat.lt_succ_of_lt (hlt x hx)
    · simp only [List.mem_singleton] at hx
      subst hx
      exact Nat.lt_succ_self _

/-- The sort behind `ORDER BY id ASC` is the identity on a well-formed
store. -/
theorem sortById_of_wf (db : DB) (h : db.wf) : sortById db.rows = db.rows :=
  List.Sorted.insertionSort_eq (h.1.imp Nat.le_of_lt)

theorem data_isEmpty_eq_false (s : String) (h : s ≠ "") : s.data.isEmpty = false := by
  cases hs : s.data with
  | nil =>
    exact absurd (by cases s with | mk d => simp only at hs; subst hs; rfl) h
  | cons a l => rfl

theorem hasKey_of_lookup (ps : List (String × Json)) (k : String) (v : Json)
    (h : lookupKey ps k = some v) : hasKey ps k = true := by
  simp only [lookupKey, Option.map_eq_some'] at h
  obtain ⟨p, hp, _⟩ := h
  have hmem : p ∈ ps := List.mem_reverse.mp (List.mem_of_find?_eq_some hp)
  have hk : (p.1 == k) = true := by
    have h2 := List.find?_some hp
    simpa using h2
  exact List.any_eq_true.mpr ⟨p, hmem, hk⟩

theorem lookup_nil_none (k : String) : lookupKey [] k = none := rfl

/-- A submit request either leaves the store unchanged or inserts exactly
one row. -/
theorem api_submit_state (body? : Option Json) (c : String) (db : DB) :
    (api_submit body? c db).2 = db ∨ ∃ r, (api_submit body? c db).2 = db.insert r := by
  unfold api_submit
  cases body? with
  | none => exact Or.inl rfl
  | some data =>
    repeat' split
    all_goals first
      | exact Or.inl rfl
      | exact Or.inr ⟨_, rfl⟩

theorem api_submit_wf (body? : Option Json) (c : String) (db : DB) (h : db.wf) :
    ((api_submit body? c db).2).wf := by
  rcases api_submit_state body? c db with hs | ⟨r, hs⟩
  · rw [hs]; exact h
  · rw [hs]; exact DB.wf_insert db r h

/-- Evaluating `api_submit` on a payload carrying the six fields with their
schema types: one row is inserted, carrying exactly the submitted values. -/
theorem api_submit_valid (kvs : List (String × Json)) (sid ts1 ts2 : String)
    (seedv durv : Int) (ans : List Json) (createdAt : String) (db : DB)
    (hsid : lookupKey kvs "submissionId" = some (.str sid))
    (hseed : lookupKey kvs "seed" = some (.num seedv))
    (hts1 : lookupKey kvs "timestampStart" = some (.str ts1))
    (hts2 : lookupKey kvs "timestampEnd" = some (.str ts2))
    (hdur : lookupKey kvs "durationSeconds" = some (.num durv))
    (hans : lookupKey kvs "answers" = some (.arr ans)) :
    api_submit (some (.obj kvs)) createdAt db =
      (⟨200, .obj [("status", .str "ok")]⟩,
       db.insert
         { id := 0
           submission_id := .str sid
           seed := seedv
           timestamp_start := ts1
           timestamp_end := ts2
           duration_seconds := durv
           answers_json := Json.dumps (.arr ans)
           created_at := createdAt }) := by
  have hkne : kvs ≠ [] := by
    intro h
    rw [h, lookup_nil_none] at hsid
    exact Option.noConfusion hsid
  have hfal : pyFalsy (.obj kvs) = false := by
    cases kvs with
    | nil => exact absurd rfl hkne
    | cons a l => rfl
  have hall : requiredFields.all (fun f => hasKey kvs f) = true := by
    simp [requiredFields, hasKey_of_lookup _ _ _ hsid, hasKey_of_lookup _ _ _ hseed,
      hasKey_of_lookup _ _ _ hts1, hasKey_of_lookup _ _ _ hts2,
      hasKey_of_lookup _ _ _ hdur, hasKey_of_lookup _ _ _ hans]
  simp [api_submit, hfal, hall, hans, getKeyD, hsid, hseed, hts1, hts2, hdur,
    pyInt, pyStr]

/-- Reading back a stored answers blob produced by the serializer returns
the original value. -/
theorem decodeAnswers_dumps (j : Json) : decodeAnswers (Json.dumps j) = j := by
  rw [decodeAnswers, if_neg, Json.loads_dumps]
  simp only [Json.dumps]
  intro h
  exact Json.render_ne_nil j (List.isEmpty_iff.mp h)

theorem decodeAnswers_of_loads_none (v : String) (h : Json.loads v = none) :
    decodeAnswers v = .arr [] := by
  rw [decodeAnswers]
  by_cases he : v.data.isEmpty
  · rw [if_pos he]
  · rw [if_neg he, h]

/-- Listing with the correct (nonempty) admin code returns all rows in
stored order. -/
theorem api_admin_data_ok (adminCode : String) (db : DB) (hne : adminCode ≠ "")
    (hwf : db.wf) :
    api_admin_data adminCode (some adminCode) db =
      ⟨200, .arr (db.rows.map rowJson)⟩ := by
  have hq : require_admin_code_from_query adminCode (some adminCode) = true := by
    simp [require_admin_code_from_query, data_isEmpty_eq_false adminCode hne]
  rw [api_admin_data, if_pos hq, sortById_of_wf db hwf]

/-- Rows appended by a batch, with fresh ids assigned from `base`. -/
def withIds (base : Nat) : List Row → List Row
  | [] => []
  | r :: rs => { r with id := base } :: withIds (base + 1) rs

/-- Sequential insertion of a list of rows. -/
def insertAll (db : DB) (rows : List Row) : DB := rows.foldl DB.insert db

theorem insertAll_spec (rows : List Row) : ∀ db : DB,
    (insertAll db rows).rows = db.rows ++ withIds db.nextId rows ∧
    (insertAll db rows).nextId = db.nextId + rows.length := by
  induction rows with
  | nil => intro db; simp [insertAll, withIds]
  | cons r rs ih =>
    intro db
    have h := ih (db.insert r)
    constructor
    · show (insertAll (db.insert r) rs).rows = _
      rw [h.1]
      show (db.rows ++ [{ r with id := db.nextId }]) ++ withIds (db.nextId + 1) rs = _
      rw [List.append_assoc]
      rfl
    · show (insertAll (db.insert r) rs).nextId = _
      rw [h.2]
      show db.nextId + 1 + rs.length = _
      simp [List.length_cons]
      omega

theorem withIds_length (base : Nat) (rows : List Row) :
    (withIds base rows).length = rows.length := by
  induction rows generalizing base with
  | nil => rfl
  | cons r rs ih => simp [withIds, ih]

theorem withIds_fields (base : Nat) (rows : List Row) :
    ∀ x ∈ withIds base rows, ∃ r ∈ rows, x = { r with id := x.id } := by
  induction rows generalizing base with
  | nil => intro x hx; exact absurd hx (by simp [withIds])
  | cons r rs ih =>
    intro x hx
    rw [withIds] at hx
    rcases List.mem_cons.mp hx with hx | hx
    · exact ⟨r, List.mem_cons_self r rs, by rw [hx]⟩
    · obtain ⟨r', hr', he⟩ := ih (base + 1) x hx
      exact ⟨r', List.mem_cons_of_mem r hr', he⟩

theorem withIds_map_submission_id (base : Nat) (rows : List Row) :
    (withIds base rows).map Row.submission_id = rows.map Row.submission_id := by
  induction rows generalizing base with
  | nil => rfl
  | cons r rs ih => simp [withIds, ih]

/-- With no datastore failure, the generation loop inserts every row. -/
theorem runInserts_ok (failAt : Nat → Bool) (hfa : ∀ i, failAt i = false)
    (rows : List Row) : ∀ (k : Nat) (db : DB),
    runInserts failAt rows k db = some (insertAll db rows) := by
  induction rows with
  | nil => intro k db; rfl
  | cons r rs ih =>
    intro k db
    rw [runInserts, if_neg (by rw [hfa k]; exact Bool.false_ne_true)]
    exact ih (k + 1) (db.insert r)

/-- The generation loop is all-or-nothing: it either aborts (no state
change once the transaction rolls back) or inserts the entire batch. -/
theorem runInserts_all_or_nothing (failAt : Nat → Bool) (rows : List Row) :
    ∀ (k : Nat) (db : DB),
    runInserts failAt rows k db = none ∨
      runInserts failAt rows k db = some (insertAll db rows) := by
  induction rows with
  | nil => intro k db; exact Or.inr rfl
  | cons r rs ih =>
    intro k db
    by_cases hf : failAt k = true
    · exact Or.inl (by rw [runInserts, if_pos hf])
    · rw [runInserts, if_neg hf]
      exact ih (k + 1) (db.insert r)

theorem pyEqStr_true_iff (c : Json) (t : String) :
    pyEqStr c t = true ↔ c = .str t := by
  cases c <;> simp [pyEqStr]

/-- The `code` field a JSON-body admin request carries, if any. -/
def bodyCode (body? : Option Json) : Option Json :=
  match body? with
  | some (.obj kvs) => lookupKey kvs "code"
  | _ => none

/-- Request bodies on which `data.get` cannot raise: absent, falsy, or an
object (the admin endpoints are specified over such bodies). -/
def DictishBody (body? : Option Json) : Prop :=
  match body? with
  | none => True
  | some j => pyFalsy j = true ∨ ∃ kvs, j = .obj kvs

theorem gate_forbidden (adminCode : String) (body? : Option Json)
    (hd : DictishBody body?) (hbad : bodyCode body? ≠ some (.str adminCode)) :
    require_admin_code_from_json adminCode body? = .forbidden := by
  cases body? with
  | none => rfl
  | some j =>
    rcases hd with hf | ⟨kvs, rfl⟩
    · simp [require_admin_code_from_json, hf, lookup_nil_none]
    · by_cases hfal : pyFalsy (.obj kvs) = true
      · simp [require_admin_code_from_json, hfal, lookup_nil_none]
      · rw [require_admin_code_from_json]
        simp only [if_neg hfal]
        cases hl : lookupKey kvs "code" with
        | none => rfl
        | some c =>
          have hne : pyEqStr c adminCode = false := by
            cases he : pyEqStr c adminCode
            · rfl
            · exact absurd (by rw [bodyCode, hl, (pyEqStr_true_iff c adminCode).mp he])
                hbad
          simp [hne]

theorem gate_ok (adminCode : String) (kvs : List (String × Json))
    (hcode : adminCode ≠ "")
    (hk : lookupKey kvs "code" = some (.str adminCode)) :
    require_admin_code_from_json adminCode (some (.obj kvs)) = .ok kvs := by
  have hkne : kvs ≠ [] := by
    intro h
    rw [h, lookup_nil_none] at hk
    exact Option.noConfusion hk
  have hfal : pyFalsy (.obj kvs) = false := by
    cases kvs with
    | nil => exact absurd rfl hkne
    | cons a l => rfl
  rw [require_admin_code_from_json]
  simp only [hfal, Bool.false_eq_true, if_false, hk]
  simp [pyFalsy, pyEqStr, data_isEmpty_eq_false adminCode hcode]

/-- A sequence of submit requests, applied in order. -/
def submitAll (reqs : List (Option Json × String)) (db : DB) : DB :=
  reqs.foldl (fun d q => (api_submit q.1 q.2 d).2) db

theorem submitAll_wf (reqs : List (Option Json × String)) :
    ∀ db : DB, db.wf → (submitAll reqs db).wf := by
  induction reqs with
  | nil => intro db h; exact h
  | cons q qs ih =>
    intro db h
    exact ih ((api_submit q.1 q.2 db).2) (api_submit_wf q.1 q.2 db h)

theorem testId_ne (ts : String) (i j : Nat) (hne : i ≠ j) :
    ("test-" ++ natStr (i + 1) ++ "-" ++ ts : String) ≠
      ("test-" ++ natStr (j + 1) ++ "-" ++ ts : String) := by
  intro h
  apply hne
  have hd := congrArg String.data h
  simp only [String.data_append, natStr, List.append_assoc] at hd
  have hd2 := List.append_cancel_left hd
  simp only [List.singleton_append] at hd2
  have h3 := congrArg (List.takeWhile (fun c => c.isDigit)) hd2
  have hok : Json.okAfterNum ('-' :: ts.data) = true := rfl
  have h4 := (Json.takeWhile_digits_append (Json.renderNat (i + 1)) ('-' :: ts.data)
      (Json.renderNat_all_digits (i + 1)) hok).1
  have h5 := (Json.takeWhile_digits_append (Json.renderNat (j + 1)) ('-' :: ts.data)
      (Json.renderNat_all_digits (j + 1)) hok).1
  rw [h4, h5] at h3
  have := Json.renderNat_injective _ _ h3
  omega

theorem total_comparisons_eq : total_comparisons = 15 := rfl

/-!
## Claim theorems
-/

/-- A valid submission payload per the spec data model: the six required
fields present with their schema types, within the declared column widths
(`String(255)` submission id, `String(64)` timestamps, 32-bit signed
duration column, seed in the documented unsigned 32-bit range). -/
def ValidPayload (kvs : List (String × Json)) (sid ts1 ts2 : String)
    (seedv durv : Int) (ans : List Json) : Prop :=
  lookupKey kvs "submissionId" = some (.str sid) ∧ sid.data.length ≤ 255 ∧
  lookupKey kvs "seed" = some (.num seedv) ∧ 0 ≤ seedv ∧ seedv ≤ 2 ^ 32 - 1 ∧
  lookupKey kvs "timestampStart" = some (.str ts1) ∧ ts1.data.length ≤ 64 ∧
  lookupKey kvs "timestampEnd" = some (.str ts2) ∧ ts2.data.length ≤ 64 ∧
  lookupKey kvs "durationSeconds" = some (.num durv) ∧
  -(2 ^ 31) ≤ durv ∧ durv ≤ 2 ^ 31 - 1 ∧
  lookupKey kvs "answers" = some (.arr ans)

/-- C1: submitting a valid payload and then listing as admin yields a
stored row whose `submissionId`, `seed`, both timestamps,
`durationSeconds` and `answers` (order- and element-preserved) exactly
match the submitted input. -/
theorem submit_then_list_round_trip
    (adminCode : String) (kvs : List (String × Json)) (sid ts1 ts2 : String)
    (seedv durv : Int) (ans : List Json) (createdAt : String) (db : DB)
    (hcode : adminCode ≠ "") (hwf : db.wf)
    (hv : ValidPayload kvs sid ts1 ts2 seedv durv ans) :
    (api_submit (some (.obj kvs)) createdAt db).1 =
      ⟨200, .obj [("status", .str "ok")]⟩ ∧
    api_admin_data adminCode (some adminCode)
        (api_submit (some (.obj kvs)) createdAt db).2 =
      ⟨200, .arr (db.rows.map rowJson ++
        [.obj [("id", .num db.nextId), ("submissionId", .str sid),
               ("seed", .num seedv), ("timestampStart", .str ts1),
               ("timestampEnd", .str ts2), ("durationSeconds", .num durv),
               ("createdAt", .str createdAt), ("answers", .arr ans)]])⟩ := by
  obtain ⟨hsid, -, hseed, -, -, hts1, -, hts2, -, hdur, -, -, hans⟩ := hv
  have hsub := api_submit_valid kvs sid ts1 ts2 seedv durv ans createdAt db
    hsid hseed hts1 hts2 hdur hans
  constructor
  · rw [hsub]
  · rw [hsub]
    rw [api_admin_data_ok adminCode _ hcode (DB.wf_insert db _ hwf)]
    simp [DB.insert, rowJson, decodeAnswers_dumps]

/-- Witness for C1 at a concrete valid payload. -/
theorem submit_then_list_round_trip_witness :
    (api_submit (some (.obj
        [("submissionId", .str "sess-1"), ("seed", .num 7),
         ("timestampStart", .str "2024-01-01T00:00:00Z"),
         ("timestampEnd", .str "2024-01-01T00:10:00Z"),
         ("durationSeconds", .num 600),
         ("answers", .arr [answerObj ⟨"p1", "a.wav", "b.wav"⟩ 1 1])]))
        "2024-01-01T00:10:01" DB.init).1 =
      ⟨200, .obj [("status", .str "ok")]⟩ ∧
    api_admin_data "admin123" (some "admin123")
        (api_submit (some (.obj
          [("submissionId", .str "sess-1"), ("seed", .num 7),
           ("timestampStart", .str "2024-01-01T00:00:00Z"),
           ("timestampEnd", .str "2024-01-01T00:10:00Z"),
           ("durationSeconds", .num 600),
           ("answers", .arr [answerObj ⟨"p1", "a.wav", "b.wav"⟩ 1 1])]))
          "2024-01-01T00:10:01" DB.init).2 =
      ⟨200, .arr (DB.init.rows.map rowJson ++
        [.obj [("id", .num DB.init.nextId), ("submissionId", .str "sess-1"),
               ("seed", .num 7), ("timestampStart", .str "2024-01-01T00:00:00Z"),
               ("timestampEnd", .str "2024-01-01T00:10:00Z"),
               ("durationSeconds", .num 600),
               ("createdAt", .str "2024-01-01T00:10:01"),
               ("answers", .arr [answerObj ⟨"p1", "a.wav", "b.wav"⟩ 1 1])]])⟩ :=
  submit_then_list_round_trip "admin123" _ "sess-1"
    "2024-01-01T00:00:00Z" "2024-01-01T00:10:00Z" 7 600
    [answerObj ⟨"p1", "a.wav", "b.wav"⟩ 1 1] "2024-01-01T00:10:01" DB.init
    (by decide) DB.wf_init
    ⟨rfl, by decide, rfl, by decide, by norm_num, rfl, by decide, rfl, by decide,
     rfl, by norm_num, by norm_num, rfl⟩

/-- C2: a mapping payload missing any one of the six required fields is
rejected with a 400 and the store is unchanged. -/
theorem submit_missing_field_rejected (kvs : List (String × Json))
    (createdAt : String) (db : DB) (f : String)
    (hf : f ∈ requiredFields) (hmiss : hasKey kvs f = false) :
    (api_submit (some (.obj kvs)) createdAt db).1.status = 400 ∧
    (api_submit (some (.obj kvs)) createdAt db).2 = db := by
  by_cases hemp : pyFalsy (.obj kvs) = true
  · constructor <;> simp [api_submit, hemp]
  · have hfal : pyFalsy (.obj kvs) = false := by
      revert hemp
      cases pyFalsy (.obj kvs) <;> simp
    have hall : requiredFields.all (fun g => hasKey kvs g) = false := by
      refine List.all_eq_false.mpr ⟨f, hf, ?_⟩
      rw [hmiss]
      exact Bool.false_ne_true
    constructor <;> simp [api_submit, hfal, hall]

/-- Witness for C2: a payload with only a submission id lacks `seed`. -/
theorem submit_missing_field_rejected_witness :
    "seed" ∈ requiredFields ∧
    hasKey [("submissionId", Json.str "s1")] "seed" = false ∧
    (api_submit (some (.obj [("submissionId", .str "s1")])) "t0" DB.init).1.status = 400 ∧
    (api_submit (some (.obj [("submissionId", .str "s1")])) "t0" DB.init).2 = DB.init :=
  ⟨by decide, rfl,
   submit_missing_field_rejected [("submissionId", .str "s1")] "t0" DB.init
     "seed" (by decide) rfl⟩

/-- C3: each of the three admin endpoints rejects a missing or not
string-equal admin code with a 403 and leaves the store unchanged. -/
theorem admin_endpoints_reject_bad_code
    (adminCode : String) (code? : Option String)
    (bodyClear bodyGen : Option Json) (env : PyEnv)
    (randF : Nat → Int → Int → Int) (sampleF : Nat → List AudioPair)
    (failAt : Nat → Bool) (db : DB)
    (hq : ∀ c, code? = some c → c ≠ adminCode)
    (hdc : DictishBody bodyClear)
    (hbc : bodyCode bodyClear ≠ some (.str adminCode))
    (hdg : DictishBody bodyGen)
    (hbg : bodyCode bodyGen ≠ some (.str adminCode)) :
    api_admin_data adminCode code? db = ⟨403, .null⟩ ∧
    api_admin_clear adminCode bodyClear db = (⟨403, .null⟩, db) ∧
    api_admin_generate_test adminCode env randF sampleF failAt bodyGen db =
      (⟨403, .null⟩, db) := by
  refine ⟨?_, ?_, ?_⟩
  · have hg : require_admin_code_from_query adminCode code? = false := by
      cases code? with
      | none => rfl
      | some c =>
        have hne := hq c rfl
        simp [require_admin_code_from_query, hne]
    rw [api_admin_data, if_neg (by rw [hg]; exact Bool.false_ne_true)]
  · rw [api_admin_clear, gate_forbidden adminCode bodyClear hdc hbc]
  · rw [api_admin_generate_test, gate_forbidden adminCode bodyGen hdg hbg]

/-- Witness for C3 at a concrete wrong code. -/
theorem admin_endpoints_reject_bad_code_witness :
    api_admin_data "admin123" (some "wrong") DB.init = ⟨403, .null⟩ ∧
    api_admin_clear "admin123" (some (.obj [("code", .str "wrong")])) DB.init =
      (⟨403, .null⟩, DB.init) ∧
    api_admin_generate_test "admin123"
        ⟨"2024-01-01T00:00:00", "1704067200", fun _ => "iso", fun _ => "c"⟩
        (fun _ lo _ => lo) (fun _ => []) (fun _ => false)
        (some (.obj [("code", .str "wrong")])) DB.init =
      (⟨403, .null⟩, DB.init) :=
  admin_endpoints_reject_bad_code "admin123" (some "wrong")
    (some (.obj [("code", .str "wrong")])) (some (.obj [("code", .str "wrong")]))
    ⟨"2024-01-01T00:00:00", "1704067200", fun _ => "iso", fun _ => "c"⟩
    (fun _ lo _ => lo) (fun _ => []) (fun _ => false) DB.init
    (fun c hc => by injection hc with hc; subst hc; decide)
    (Or.inr ⟨_, rfl⟩) (by intro h; simp [bodyCode, lookupKey] at h)
    (Or.inr ⟨_, rfl⟩) (by intro h; simp [bodyCode, lookupKey] at h)

/-- C4: after any sequence of submissions, listing as admin returns every
stored row, in insertion order, with strictly increasing surrogate ids. -/
theorem list_all_insertion_order (adminCode : String)
    (reqs : List (Option Json × String)) (hcode : adminCode ≠ "") :
    api_admin_data adminCode (some adminCode) (submitAll reqs DB.init) =
      ⟨200, .arr ((submitAll reqs DB.init).rows.map rowJson)⟩ ∧
    ((submitAll reqs DB.init).rows.map Row.id).Pairwise (· < ·) := by
  have hwf := submitAll_wf reqs DB.init DB.wf_init
  refine ⟨api_admin_data_ok adminCode _ hcode hwf, ?_⟩
  exact List.Pairwise.map Row.id (fun a b h => h) hwf.1

/-- Witness for C4 at a concrete two-submission sequence. -/
theorem list_all_insertion_order_witness :
    api_admin_data "admin123" (some "admin123")
      (submitAll
        [(some (.obj
            [("submissionId", .str "s1"), ("seed", .num 1),
             ("timestampStart", .str "a"), ("timestampEnd", .str "b"),
             ("durationSeconds", .num 60), ("answers", .arr [])]), "t1"),
         (some (.obj
            [("submissionId", .str "s2"), ("seed", .num 2),
             ("timestampStart", .str "c"), ("timestampEnd", .str "d"),
             ("durationSeconds", .num 61), ("answers", .arr [])]), "t2")]
        DB.init) =
      ⟨200, .arr ((submitAll
        [(some (.obj
            [("submissionId", .str "s1"), ("seed", .num 1),
             ("timestampStart", .str "a"), ("timestampEnd", .str "b"),
             ("durationSeconds", .num 60), ("answers", .arr [])]), "t1"),
         (some (.obj
            [("submissionId", .str "s2"), ("seed", .num 2),
             ("timestampStart", .str "c"), ("timestampEnd", .str "d"),
             ("durationSeconds", .num 61), ("answers", .arr [])]), "t2")]
        DB.init).rows.map rowJson)⟩ ∧
    ((submitAll
        [(some (.obj
            [("submissionId", .str "s1"), ("seed", .num 1),
             ("timestampStart", .str "a"), ("timestampEnd", .str "b"),
             ("durationSeconds", .num 60), ("answers", .arr [])]), "t1"),
         (some (.obj
            [("submissionId", .str "s2"), ("seed", .num 2),
             ("timestampStart", .str "c"), ("timestampEnd", .str "d"),
             ("durationSeconds", .num 61), ("answers", .arr [])]), "t2")]
        DB.init).rows.map Row.id).Pairwise (· < ·) :=
  list_all_insertion_order "admin123" _ (by decide)

/-- C5: a submitted seed anywhere in the unsigned 32-bit range is stored
and listed exactly, with no truncation or wrap-around. -/
theorem seed_stored_and_listed_exactly
    (adminCode : String) (kvs : List (String × Json)) (sid ts1 ts2 : String)
    (seedv durv : Int) (ans : List Json) (createdAt : String) (db : DB)
    (hcode : adminCode ≠ "") (hwf : db.wf)
    (hv : ValidPayload kvs sid ts1 ts2 seedv durv ans) :
    ((api_submit (some (.obj kvs)) createdAt db).2).rows.map Row.seed =
      db.rows.map Row.seed ++ [seedv] ∧
    (api_admin_data adminCode (some adminCode)
        (api_submit (some (.obj kvs)) createdAt db).2).body =
      .arr (db.rows.map rowJson ++
        [.obj [("id", .num db.nextId), ("submissionId", .str sid),
               ("seed", .num seedv), ("timestampStart", .str ts1),
               ("timestampEnd", .str ts2), ("durationSeconds", .num durv),
               ("createdAt", .str createdAt), ("answers", .arr ans)]]) := by
  obtain ⟨hsid, -, hseed, -, -, hts1, -, hts2, -, hdur, -, -, hans⟩ := hv
  have hsub := api_submit_valid kvs sid ts1 ts2 seedv durv ans createdAt db
    hsid hseed hts1 hts2 hdur hans
  constructor
  · rw [hsub]
    simp [DB.insert]
  · rw [hsub]
    rw [api_admin_data_ok adminCode _ hcode (DB.wf_insert db _ hwf)]
    simp [DB.insert, rowJson, decodeAnswers_dumps]

/-- Witness for C5 at the spec scenario seed `4294967295 = 2 ^ 32 - 1`. -/
theorem seed_stored_and_listed_exactly_witness :
    ((api_submit (some (.obj
        [("submissionId", .str "s1"), ("seed", .num 4294967295),
         ("timestampStart", .str "2024-01-01T00:00:00Z"),
         ("timestampEnd", .str "2024-01-01T00:10:00Z"),
         ("durationSeconds", .num 600),
         ("answers", .arr [answerObj ⟨"p1", "a.wav", "b.wav"⟩ 1 1])]))
        "t0" DB.init).2).rows.map Row.seed =
      DB.init.rows.map Row.seed ++ [4294967295] ∧
    (api_admin_data "admin123" (some "admin123")
        (api_submit (some (.obj
          [("submissionId", .str "s1"), ("seed", .num 4294967295),
           ("timestampStart", .str "2024-01-01T00:00:00Z"),
           ("timestampEnd", .str "2024-01-01T00:10:00Z"),
           ("durationSeconds", .num 600),
           ("answers", .arr [answerObj ⟨"p1", "a.wav", "b.wav"⟩ 1 1])]))
          "t0" DB.init).2).body =
      .arr (DB.init.rows.map rowJson ++
        [.obj [("id", .num DB.init.nextId), ("submissionId", .str "s1"),
               ("seed", .num 4294967295),
               ("timestampStart", .str "2024-01-01T00:00:00Z"),
               ("timestampEnd", .str "2024-01-01T00:10:00Z"),
               ("durationSeconds", .num 600), ("createdAt", .str "t0"),
               ("answers", .arr [answerObj ⟨"p1", "a.wav", "b.wav"⟩ 1 1])]]) :=
  seed_stored_and_listed_exactly "admin123" _ "s1"
    "2024-01-01T00:00:00Z" "2024-01-01T00:10:00Z" 4294967295 600
    [answerObj ⟨"p1", "a.wav", "b.wav"⟩ 1 1] "t0" DB.init
    (by decide) DB.wf_init
    ⟨rfl, by decide, rfl, by norm_num, by norm_num, rfl, by decide, rfl, by decide,
     rfl, by norm_num, by norm_num, rfl⟩

/-- A syntactically complete payload whose `seed` is a non-numeric string:
`int(data["seed"])` raises an uncaught `ValueError` in `api_submit`. -/
def c6payload : List (String × Json) :=
  [("submissionId", .str "s1"), ("seed", .str "abc"),
   ("timestampStart", .str "2024-01-01T00:00:00Z"),
   ("timestampEnd", .str "2024-01-01T00:10:00Z"),
   ("durationSeconds", .num 600),
   ("answers", .arr [])]

/-- C6 counterexample: at a complete payload with an uncoercible `seed`
the request fails with a 500-class server error, not a 4xx client error
(no row is stored either way). -/
theorem submit_invalid_type_counterexample :
    (api_submit (some (.obj c6payload)) "t0" DB.init).1.status = 500 ∧
    ¬(400 ≤ (api_submit (some (.obj c6payload)) "t0" DB.init).1.status ∧
      (api_submit (some (.obj c6payload)) "t0" DB.init).1.status < 500) ∧
    (api_submit (some (.obj c6payload)) "t0" DB.init).2 = DB.init := by
  refine ⟨rfl, by decide, rfl⟩

/-- C6 (amended): a payload with all six fields and a list-valued
`answers` whose `seed` or `durationSeconds` cannot be coerced by `int()`
makes the request fail with an uncaught error — a 500-class response, not
a 4xx — and stores no row. -/
theorem submit_uncoercible_number_server_error
    (kvs : List (String × Json)) (createdAt : String) (db : DB)
    (ans : List Json)
    (hall : requiredFields.all (fun f => hasKey kvs f) = true)
    (hans : lookupKey kvs "answers" = some (.arr ans))
    (hbad : pyInt (getKeyD kvs "seed") = none ∨
      pyInt (getKeyD kvs "durationSeconds") = none) :
    (api_submit (some (.obj kvs)) createdAt db).1.status = 500 ∧
    (api_submit (some (.obj kvs)) createdAt db).2 = db := by
  have hkne : kvs ≠ [] := by
    intro h
    subst h
    simp [requiredFields, hasKey] at hall
  have hfal : pyFalsy (.obj kvs) = false := by
    cases kvs with
    | nil => exact absurd rfl hkne
    | cons a l => rfl
  rcases hbad with hb | hb
  · constructor <;> simp [api_submit, hfal, hall, hans, hb, serverError]
  · cases hs : pyInt (getKeyD kvs "seed") with
    | none => constructor <;> simp [api_submit, hfal, hall, hans, hs, serverError]
    | some sv =>
      constructor <;> simp [api_submit, hfal, hall, hans, hs, hb, serverError]

/-- Witness for the amended C6. -/
theorem submit_uncoercible_number_server_error_witness :
    (api_submit (some (.obj c6payload)) "t1" DB.init).1.status = 500 ∧
    (api_submit (some (.obj c6payload)) "t1" DB.init).2 = DB.init :=
  submit_uncoercible_number_server_error c6payload "t1" DB.init []
    (by decide) rfl (Or.inl rfl)

/-- C7: a stored row whose answers text does not deserialize is still
listed, with all other fields intact and an empty answers array; the
listing request itself succeeds. -/
theorem corrupted_row_still_listed (adminCode : String) (db : DB) (r : Row)
    (hcode : adminCode ≠ "") (hwf : db.wf) (hr : r ∈ db.rows)
    (hbad : Json.loads r.answers_json = none) :
    (api_admin_data adminCode (some adminCode) db).status = 200 ∧
    (api_admin_data adminCode (some adminCode) db).body =
      .arr (db.rows.map rowJson) ∧
    rowJson r ∈ db.rows.map rowJson ∧
    rowJson r = .obj [("id", .num r.id), ("submissionId", r.submission_id),
        ("seed", .num r.seed), ("timestampStart", .str r.timestamp_start),
        ("timestampEnd", .str r.timestamp_end),
        ("durationSeconds", .num r.duration_seconds),
        ("createdAt", .str r.created_at), ("answers", .arr [])] := by
  have hlist := api_admin_data_ok adminCode db hcode hwf
  refine ⟨by rw [hlist], by rw [hlist], List.mem_map_of_mem rowJson hr, ?_⟩
  rw [rowJson, decodeAnswers_of_loads_none _ hbad]

/-- Witness for C7 at a concrete store with one corrupted row. -/
theorem corrupted_row_still_listed_witness :
    (api_admin_data "admin123" (some "admin123")
        ⟨[⟨1, .str "s1", 5, "a", "b", 9, "not json", "c"⟩], 2⟩).status = 200 ∧
    (api_admin_data "admin123" (some "admin123")
        ⟨[⟨1, .str "s1", 5, "a", "b", 9, "not json", "c"⟩], 2⟩).body =
      .arr ([⟨1, .str "s1", 5, "a", "b", 9, "not json", "c"⟩].map rowJson) ∧
    rowJson ⟨1, .str "s1", 5, "a", "b", 9, "not json", "c"⟩ ∈
      ([⟨1, .str "s1", 5, "a", "b", 9, "not json", "c"⟩] : List Row).map rowJson ∧
    rowJson ⟨1, .str "s1", 5, "a", "b", 9, "not json", "c"⟩ =
      .obj [("id", .num 1), ("submissionId", .str "s1"), ("seed", .num 5),
            ("timestampStart", .str "a"), ("timestampEnd", .str "b"),
            ("durationSeconds", .num 9), ("createdAt", .str "c"),
            ("answers", .arr [])] :=
  corrupted_row_still_listed "admin123"
    ⟨[⟨1, .str "s1", 5, "a", "b", 9, "not json", "c"⟩], 2⟩
    ⟨1, .str "s1", 5, "a", "b", 9, "not json", "c"⟩
    (by decide)
    ⟨List.pairwise_singleton _ _, by
      intro x hx
      rw [List.mem_singleton] at hx
      subst hx
      decide⟩
    (List.mem_singleton.mpr rfl) rfl

/-- C8: an authorized generation request with a non-negative count adds
exactly that many rows; every new row has 15 answers whose codes lie in
`0, 1, 2`, a seed in the unsigned 32-bit range starting at 1, and a
submission id combining its batch index with the generation timestamp, so
ids never collide within one batch. -/
theorem generate_test_batch
    (adminCode : String) (kvs : List (String × Json)) (env : PyEnv)
    (randF : Nat → Int → Int → Int) (sampleF : Nat → List AudioPair)
    (failAt : Nat → Bool) (db : DB) (total : Int)
    (hcode : adminCode ≠ "")
    (hk : lookupKey kvs "code" = some (.str adminCode))
    (hcount : pyInt ((lookupKey kvs "count").getD (.num 5)) = some total)
    (hrand : ∀ k lo hi, lo ≤ hi → lo ≤ randF k lo hi ∧ randF k lo hi ≤ hi)
    (hsample : ∀ i, (sampleF i).length = total_comparisons)
    (hfail : ∀ i, failAt i = false) :
    (api_admin_generate_test adminCode env randF sampleF failAt
        (some (.obj kvs)) db).1 =
      ⟨200, .obj [("status", .str "generated"), ("count", .num total)]⟩ ∧
    ((api_admin_generate_test adminCode env randF sampleF failAt
        (some (.obj kvs)) db).2).rows =
      db.rows ++ withIds db.nextId
        ((List.range total.toNat).map (genRow env randF sampleF)) ∧
    ((api_admin_generate_test adminCode env randF sampleF failAt
        (some (.obj kvs)) db).2).rows.length =
      db.rows.length + total.toNat ∧
    (∀ r ∈ withIds db.nextId
        ((List.range total.toNat).map (genRow env randF sampleF)),
      (1 ≤ r.seed ∧ r.seed ≤ 2 ^ 32 - 1) ∧
      ∃ answers : List Json,
        decodeAnswers r.answers_json = .arr answers ∧ answers.length = 15 ∧
        ∀ a ∈ answers, ∃ pair idx code, a = answerObj pair idx code ∧
          (code = 0 ∨ code = 1 ∨ code = 2)) ∧
    (withIds db.nextId
        ((List.range total.toNat).map (genRow env randF sampleF))).map
      Row.submission_id =
      (List.range total.toNat).map
        (fun i => Json.str ("test-" ++ natStr (i + 1) ++ "-" ++ env.epochStr)) ∧
    ((List.range total.toNat).map
        (fun i => Json.str ("test-" ++ natStr (i + 1) ++ "-" ++ env.epochStr))).Pairwise
      (· ≠ ·) := by
  have hgate := gate_ok adminCode kvs hcode hk
  have hins := runInserts_ok failAt hfail
    ((List.range total.toNat).map (genRow env randF sampleF)) 0 db
  have hres : api_admin_generate_test adminCode env randF sampleF failAt
      (some (.obj kvs)) db =
      (⟨200, .obj [("status", .str "generated"), ("count", .num total)]⟩,
       insertAll db ((List.range total.toNat).map (genRow env randF sampleF))) := by
    simp only [api_admin_generate_test, hgate, hcount, hins]
  obtain ⟨hrows, -⟩ :=
    insertAll_spec ((List.range total.toNat).map (genRow env randF sampleF)) db
  refine ⟨by rw [hres], by rw [hres]; exact hrows, ?_, ?_, ?_, ?_⟩
  · rw [hres]
    simp [hrows, withIds_length]
  · intro r hr
    obtain ⟨r0, hr0, hre⟩ := withIds_fields _ _ r hr
    obtain ⟨i, hi, hgen⟩ := List.mem_map.mp hr0
    constructor
    · rw [hre, ← hgen]
      simp only [genRow]
      exact hrand (i * 17 + 16) 1 (2 ^ 32 - 1) (by norm_num)
    · refine ⟨genAnswers randF (i * 17) (sampleF i), ?_, ?_, ?_⟩
      · rw [hre, ← hgen]
        simp only [genRow]
        exact decodeAnswers_dumps _
      · simp [genAnswers, List.enum_length, hsample i, total_comparisons_eq]
      · intro a ha
        simp only [genAnswers] at ha
        obtain ⟨p, hp, hpe⟩ := List.mem_map.mp ha
        refine ⟨p.2, p.1 + 1, randF (i * 17 + 1 + p.1) 0 2, hpe.symm, ?_⟩
        have hb := hrand (i * 17 + 1 + p.1) 0 2 (by norm_num)
        omega
  · rw [withIds_map_submission_id, List.map_map]
    refine List.map_congr_left ?_
    intro a _
    simp [genRow]
  · refine List.Pairwise.map _ ?_ (List.pairwise_lt_range _)
    intro a b hab he
    injection he with he
    exact testId_ne env.epochStr a b (Nat.ne_of_lt hab) he

/-- Witness for C8 at a concrete authorized call with count 2. -/
theorem generate_test_batch_witness :
    (api_admin_generate_test "admin123"
        ⟨"2024-01-01T00:00:00", "1704067200", fun _ => "iso", fun _ => "c"⟩
        (fun _ lo _ => lo) (fun _ => real_pairs.take 15) (fun _ => false)
        (some (.obj [("code", .str "admin123"), ("count", .num 2)]))
        DB.init).1 =
      ⟨200, .obj [("status", .str "generated"), ("count", .num 2)]⟩ ∧
    ((api_admin_generate_test "admin123"
        ⟨"2024-01-01T00:00:00", "1704067200", fun _ => "iso", fun _ => "c"⟩
        (fun _ lo _ => lo) (fun _ => real_pairs.take 15) (fun _ => false)
        (some (.obj [("code", .str "admin123"), ("count", .num 2)]))
        DB.init).2).rows =
      DB.init.rows ++ withIds DB.init.nextId
        ((List.range (2 : Int).toNat).map (genRow
          ⟨"2024-01-01T00:00:00", "1704067200", fun _ => "iso", fun _ => "c"⟩
          (fun _ lo _ => lo) (fun _ => real_pairs.take 15))) ∧
    ((api_admin_generate_test "admin123"
        ⟨"2024-01-01T00:00:00", "1704067200", fun _ => "iso", fun _ => "c"⟩
        (fun _ lo _ => lo) (fun _ => real_pairs.take 15) (fun _ => false)
        (some (.obj [("code", .str "admin123"), ("count", .num 2)]))
        DB.init).2).rows.length = DB.init.rows.length + (2 : Int).toNat ∧
    (∀ r ∈ withIds DB.init.nextId
        ((List.range (2 : Int).toNat).map (genRow
          ⟨"2024-01-01T00:00:00", "1704067200", fun _ => "iso", fun _ => "c"⟩
          (fun _ lo _ => lo) (fun _ => real_pairs.take 15))),
      (1 ≤ r.seed ∧ r.seed ≤ 2 ^ 32 - 1) ∧
      ∃ answers : List Json,
        decodeAnswers r.answers_json = .arr answers ∧ answers.length = 15 ∧
        ∀ a ∈ answers, ∃ pair idx code, a = answerObj pair idx code ∧
          (code = 0 ∨ code = 1 ∨ code = 2)) ∧
    (withIds DB.init.nextId
        ((List.range (2 : Int).toNat).map (genRow
          ⟨"2024-01-01T00:00:00", "1704067200", fun _ => "iso", fun _ => "c"⟩
          (fun _ lo _ => lo) (fun _ => real_pairs.take 15)))).map
      Row.submission_id =
      (List.range (2 : Int).toNat).map
        (fun i => Json.str ("test-" ++ natStr (i + 1) ++ "-" ++ "1704067200")) ∧
    ((List.range (2 : Int).toNat).map
        (fun i => Json.str ("test-" ++ natStr (i + 1) ++ "-" ++ "1704067200"))).Pairwise
      (· ≠ ·) :=
  generate_test_batch "admin123"
    [("code", .str "admin123"), ("count", .num 2)]
    ⟨"2024-01-01T00:00:00", "1704067200", fun _ => "iso", fun _ => "c"⟩
    (fun _ lo _ => lo) (fun _ => real_pairs.take 15) (fun _ => false)
    DB.init 2 (by decide) rfl rfl
    (fun _ lo hi h => ⟨le_refl lo, h⟩) (fun _ => rfl) (fun _ => rfl)

/-- C9: the generation batch is all-or-nothing — afterwards either the
store is unchanged (the transaction rolled back) or it holds exactly the
`count` new rows appended. -/
theorem generate_test_atomic
    (adminCode : String) (kvs : List (String × Json)) (env : PyEnv)
    (randF : Nat → Int → Int → Int) (sampleF : Nat → List AudioPair)
    (failAt : Nat → Bool) (db : DB) (total : Int)
    (hcode : adminCode ≠ "")
    (hk : lookupKey kvs "code" = some (.str adminCode))
    (hcount : pyInt ((lookupKey kvs "count").getD (.num 5)) = some total) :
    (api_admin_generate_test adminCode env randF sampleF failAt
        (some (.obj kvs)) db).2 = db ∨
    (((api_admin_generate_test adminCode env randF sampleF failAt
        (some (.obj kvs)) db).2).rows =
      db.rows ++ withIds db.nextId
        ((List.range total.toNat).map (genRow env randF sampleF)) ∧
     (withIds db.nextId
        ((List.range total.toNat).map (genRow env randF sampleF))).length =
      total.toNat) := by
  have hgate := gate_ok adminCode kvs hcode hk
  rcases runInserts_all_or_nothing failAt
      ((List.range total.toNat).map (genRow env randF sampleF)) 0 db with hn | hs
  · left
    simp only [api_admin_generate_test, hgate, hcount, hn]
  · right
    have hspec :=
      insertAll_spec ((List.range total.toNat).map (genRow env randF sampleF)) db
    constructor
    · simp only [api_admin_generate_test, hgate, hcount, hs]
      exact hspec.1
    · simp [withIds_length]

/-- Witness for C9: with a failing first insert the store is unchanged. -/
theorem generate_test_atomic_witness :
    (api_admin_generate_test "admin123"
        ⟨"2024-01-01T00:00:00", "1704067200", fun _ => "iso", fun _ => "c"⟩
        (fun _ lo _ => lo) (fun _ => real_pairs.take 15) (fun _ => true)
        (some (.obj [("code", .str "admin123"), ("count", .num 2)]))
        DB.init).2 = DB.init ∨
    (((api_admin_generate_test "admin123"
        ⟨"2024-01-01T00:00:00", "1704067200", fun _ => "iso", fun _ => "c"⟩
        (fun _ lo _ => lo) (fun _ => real_pairs.take 15) (fun _ => true)
        (some (.obj [("code", .str "admin123"), ("count", .num 2)]))
        DB.init).2).rows =
      DB.init.rows ++ withIds DB.init.nextId
        ((List.range (2 : Int).toNat).map (genRow
          ⟨"2024-01-01T00:00:00", "1704067200", fun _ => "iso", fun _ => "c"⟩
          (fun _ lo _ => lo) (fun _ => real_pairs.take 15))) ∧
     (withIds DB.init.nextId
        ((List.range (2 : Int).toNat).map (genRow
          ⟨"2024-01-01T00:00:00", "1704067200", fun _ => "iso", fun _ => "c"⟩
          (fun _ lo _ => lo) (fun _ => real_pairs.take 15)))).length =
      (2 : Int).toNat) :=
  generate_test_atomic "admin123"
    [("code", .str "admin123"), ("count", .num 2)]
    ⟨"2024-01-01T00:00:00", "1704067200", fun _ => "iso", fun _ => "c"⟩
    (fun _ lo _ => lo) (fun _ => real_pairs.take 15) (fun _ => true)
    DB.init 2 (by decide) rfl rfl

/-- C10: every falsy parsed body — `{}`, `[]`, `false`, `0`, `null`, `""`
— is answered with 400 and the `Invalid JSON` diagnostic; in particular a
well-formed empty object is reported as malformed JSON rather than as
missing required fields. -/
theorem submit_falsy_body_rejected_as_invalid_json (db : DB) (createdAt : String) :
    api_submit (some (.obj [])) createdAt db =
      (⟨400, .obj [("error", .str "Invalid JSON")]⟩, db) ∧
    api_submit (some (.arr [])) createdAt db =
      (⟨400, .obj [("error", .str "Invalid JSON")]⟩, db) ∧
    api_submit (some (.bool false)) createdAt db =
      (⟨400, .obj [("error", .str "Invalid JSON")]⟩, db) ∧
    api_submit (some (.num 0)) createdAt db =
      (⟨400, .obj [("error", .str "Invalid JSON")]⟩, db) ∧
    api_submit (some .null) createdAt db =
      (⟨400, .obj [("error", .str "Invalid JSON")]⟩, db) ∧
    api_submit (some (.str "")) createdAt db =
      (⟨400, .obj [("error", .str "Invalid JSON")]⟩, db) :=
  ⟨rfl, rfl, rfl, rfl, rfl, rfl⟩

end SoundCompare
